import Mathlib

/-!
# ITKTools: `pxerodeimage` and `pxextractslice`

A shallow embedding of the two command-line drivers
`src/erodeimage/erodeimage.cxx` and `src/extractslice/extractslice.cxx`.

Both programs are a straight line of argument queries, checks and one
type-dispatched call into ITK.  Everything that lives outside the two files
(the command-line parser, `GetImageProperties`, `ReplaceUnderscoreWithSpace`,
the `itksys` filename helpers and the ITK pipeline itself) is taken as a
parameter: the parser through `CommandLine`, the rest through `World`.

`unsigned int` values are natural numbers; the one place where the source
subtracts (`Dimension - 1`) is reduced modulo `2^32`.
-/

namespace ITKTools

/-! ## Shared interface of the two programs -/

/-- The answers of `itk::CommandLineArgumentParser` after
`SetCommandLineArguments( argc, argv )`.  `GetCommandLineArgument( key, var )`
returns whether `key` was given and, when it was, stores its value in `var`;
the three fields are the three overloads the programs use
(`std::string`, `unsigned int`, `std::vector<unsigned int>`). -/
structure CommandLine where
  argc : Nat
  getString : String → Option String
  getUInt : String → Option Nat
  getUIntList : String → Option (List Nat)

/-- The output parameters and the return value of `GetImageProperties`. -/
structure ImageProperties where
  retgip : Int
  PixelType : String
  ComponentType : String
  Dimension : Nat
  NumberOfComponents : Nat
  imagesize : List Nat
deriving DecidableEq, Repr

/-- The collaborators of the two `main` functions, for a call type `Call`
(one value per instantiation of the processing template that gets called).
`throwsITK c` tells whether the call `c` raises an `itk::ExceptionObject`.
`past i` is the word the machine yields when a `std::vector<unsigned int>` is
read at an index `i` past its end (the C++ standard leaves that read
undefined; the model keeps going with `past i` and records the index). -/
structure World (Call : Type) where
  GetImageProperties : String → ImageProperties
  ReplaceUnderscoreWithSpace : String → String
  GetFilenameWithoutLastExtension : String → String
  GetFilenameLastExtension : String → String
  throwsITK : Call → Bool
  past : Nat → Nat

/-- The expression `v[ i ]` on a `std::vector<unsigned int>`. -/
def vectorAt (past : Nat → Nat) (v : List Nat) (i : Nat) : Nat :=
  match v[i]? with
  | some x => x
  | none => past i

/-- The indices recorded for the read `v[ i ]`: `i` itself when it lies past
the end of `v`, nothing otherwise. -/
def vectorOob (v : List Nat) (i : Nat) : List Nat :=
  if v.length ≤ i then [i] else []

/-- Subtraction of two `unsigned int` values (32 bits, wrapping). -/
def usub (a b : Nat) : Nat :=
  (a % 4294967296 + 4294967296 - b % 4294967296) % 4294967296

/-- The statements of a `try` block, each either skipped (`none`, the guard of
the `run` line was false) or a call.  They are executed in order; the first
call that throws ends the block.  The result is the calls made and whether
the `catch` clause was entered. -/
def tryBlock {Call : Type} (throwsITK : Call → Bool) : List (Option Call) → List Call × Bool
  | [] => ([], false)
  | none :: rest => tryBlock throwsITK rest
  | some c :: rest =>
    if throwsITK c then ([c], true)
    else ((c :: (tryBlock throwsITK rest).1), (tryBlock throwsITK rest).2)

/-! ## `extractslice.cxx` -/

namespace extractslice

/-- One call `ExtractSlice< type >( inputFileName, outputFileName,
slicenumber, which_dimension )`. -/
structure Call where
  type : String
  inputFileName : String
  outputFileName : String
  slicenumber : Nat
  which_dimension : Nat
deriving DecidableEq, Repr

/-- The `return` statements of `main`, in source order. -/
inductive Site where
  | help
  | missingIn
  | inspection
  | vectorImage
  | missingSn
  | sliceNumber
  | whichDimension
  | itkException
  | done
deriving DecidableEq, Repr

/-- The value returned by `main` at each `return`. -/
def Site.status : Site → Nat
  | .done => 0
  | _ => 1

/-- What a run of `main` did: where it returned, the `ExtractSlice` calls it
made, and the indices at which it read `imagesize` past its end. -/
structure Outcome where
  site : Site
  calls : List Call
  oob : List Nat
deriving DecidableEq, Repr

/-- The local variables of `main` that are live at the `try` block
(line 141). -/
structure Args where
  ComponentType : String
  inputFileName : String
  outputFileName : String
  slicenumber : Nat
  which_dimension : Nat
  oob : List Nat
deriving DecidableEq, Repr

/-- The `run` lines 18-22: `if ( ComponentType == #type )` call
`function< type >( inputFileName, outputFileName, slicenumber,
which_dimension )`. -/
def run (a : Args) (type : String) : Option Call :=
  if a.ComponentType = type then
    some ⟨type, a.inputFileName, a.outputFileName, a.slicenumber, a.which_dimension⟩
  else none

/-- Lines 39-139 of `main`: every statement before the `try` block.  The
result is either the outcome of an early `return` or the variables handed to
the `try` block. -/
def validate (w : World Call) (p : CommandLine) : Except Outcome Args :=
  if p.argc < 5 then .error ⟨.help, [], []⟩ else
  match p.getString "-in" with
  | none => .error ⟨.missingIn, [], []⟩
  | some inputFileName =>
    let props := w.GetImageProperties inputFileName
    if props.retgip ≠ 0 then .error ⟨.inspection, [], []⟩ else
    let ComponentType := (p.getString "-pt").getD props.ComponentType
    if props.NumberOfComponents > 1 then .error ⟨.vectorImage, [], []⟩ else
    match p.getUInt "-sn" with
    | none => .error ⟨.missingSn, [], []⟩
    | some slicenumber =>
      let slicenumberstring := (p.getString "-sn").getD ""
      let which_dimension := (p.getUInt "-d").getD 2
      let oob := vectorOob props.imagesize which_dimension
      if slicenumber > vectorAt w.past props.imagesize which_dimension then
        .error ⟨.sliceNumber, [], oob⟩
      else if which_dimension > usub props.Dimension 1 then
        .error ⟨.whichDimension, [], oob⟩
      else
        let direction :=
          if which_dimension = 0 then "x" else if which_dimension = 1 then "y" else "z"
        let part1 := w.GetFilenameWithoutLastExtension inputFileName
        let part2 := w.GetFilenameLastExtension inputFileName
        let outputFileName :=
          (p.getString "-out").getD
            (part1 ++ "_slice_" ++ direction ++ "=" ++ slicenumberstring ++ part2)
        .ok ⟨ComponentType, inputFileName, outputFileName, slicenumber, which_dimension, oob⟩

/-- Lines 141-157 of `main`: the `try` block with its five `run` lines, the
`catch` clause and the final `return 0`. -/
def dispatch (w : World Call) (a : Args) : Outcome :=
  let r := tryBlock w.throwsITK
    [run a "unsigned char", run a "char", run a "unsigned short", run a "short",
     run a "float"]
  if r.2 then ⟨.itkException, r.1, a.oob⟩ else ⟨.done, r.1, a.oob⟩

/-- The function `main` of `extractslice.cxx`. -/
def main (w : World Call) (p : CommandLine) : Outcome :=
  match validate w p with
  | .error o => o
  | .ok a => dispatch w a

/-- The region `itk::ImageRegion<3>` of a three-dimensional image: a start
index (`itk::Index<3>`, signed `long` entries) and a size (`itk::Size<3>`,
unsigned entries), one entry per axis. -/
structure Region where
  Index : Fin 3 → Int
  Size : Fin 3 → Nat

/-- Lines 193-206 of `ExtractSlice`: from the largest possible region of the
image that was read, the region set into the extractor.

    SizeType size = inputRegion.GetSize();
    size[ which_dimension ] = 0;
    IndexType start = inputRegion.GetIndex();
    start[ which_dimension ] = slicenumber;
    desiredRegion.SetSize( size ); desiredRegion.SetIndex( start );

`size` and `start` are fixed arrays of three entries, so an axis of 3 or more
writes outside them and the function has no result there.  The assignment to
`start` converts `unsigned int` to `long` (64 bits), which keeps the value. -/
def desiredRegion (inputRegion : Region) (slicenumber which_dimension : Nat) :
    Option Region :=
  if h : which_dimension < 3 then
    let size := Function.update inputRegion.Size ⟨which_dimension, h⟩ 0
    let start := Function.update inputRegion.Index ⟨which_dimension, h⟩ (Int.ofNat slicenumber)
    some ⟨start, size⟩
  else none

end extractslice

/-! ## `erodeimage.cxx` -/

namespace erodeimage

/-- One call `ErodeImage< itk::Image< type, dim > >( inputFileName,
outputFileName, Radius, boundaryCondition )`. -/
structure Call where
  type : String
  dim : Nat
  inputFileName : String
  outputFileName : String
  radius : List Nat
  boundaryCondition : String
deriving DecidableEq, Repr

/-- The `return` statements of `main`, in source order. -/
inductive Site where
  | help
  | missingIn
  | missingR
  | inspection
  | vectorImage
  | radiusCount
  | radiusNonpositive
  | itkException
  | done
deriving DecidableEq, Repr

/-- The value returned by `main` at each `return`. -/
def Site.status : Site → Nat
  | .done => 0
  | _ => 1

/-- What a run of `main` did: where it returned, the `ErodeImage` calls it
made, and the indices at which it read `radius` past its end. -/
structure Outcome where
  site : Site
  calls : List Call
  oob : List Nat
deriving DecidableEq, Repr

/-- The local variables of `main` that are live at the `try` block
(line 145). -/
structure Args where
  ComponentType : String
  Dimension : Nat
  inputFileName : String
  outputFileName : String
  Radius : List Nat
  boundaryCondition : String
  oob : List Nat
deriving DecidableEq, Repr

/-- The `run` lines 14-19: `if ( ComponentType == #type && Dimension == dim )`
call `function< itk::Image< type, dim > >( inputFileName, outputFileName,
Radius, boundaryCondition )`. -/
def run (a : Args) (type : String) (dim : Nat) : Option Call :=
  if a.ComponentType = type ∧ a.Dimension = dim then
    some ⟨type, dim, a.inputFileName, a.outputFileName, a.Radius, a.boundaryCondition⟩
  else none

/-- The loop of lines 134-142, entered with counter `i` and `n` iterations
left (`n = Dimension - i`):

    Radius[ i ] = radius[ i ];
    if ( Radius[ i ] < 1 ) return 1;

`none` is the `return 1`; `some` is the vector `Radius` when the loop ends. -/
def radiusLoop (past : Nat → Nat) (radius : List Nat) : Nat → Nat → List Nat → Option (List Nat)
  | 0, _, Radius => some Radius
  | n + 1, i, Radius =>
    let Radius1 := Radius.set i (vectorAt past radius i)
    if vectorAt past Radius1 i < 1 then none
    else radiusLoop past radius n (i + 1) Radius1

/-- Lines 33-143 of `main`: every statement before the `try` block.  The
result is either the outcome of an early `return` or the variables handed to
the `try` block. -/
def validate (w : World Call) (p : CommandLine) : Except Outcome Args :=
  if p.argc < 5 ∨ p.argc > 13 then .error ⟨.help, [], []⟩ else
  let inputFileName := (p.getString "-in").getD ""
  let retin := (p.getString "-in").isSome
  let ext := w.GetFilenameLastExtension inputFileName
  let outputFileName :=
    (p.getString "-out").getD
      (w.GetFilenameWithoutLastExtension inputFileName ++ ("ERODED" ++ ext))
  let boundaryCondition := (p.getString "-bc").getD ""
  let radius := (p.getUIntList "-r").getD []
  let retr := (p.getUIntList "-r").isSome
  if !retin then .error ⟨.missingIn, [], []⟩ else
  if !retr then .error ⟨.missingR, [], []⟩ else
  let props := w.GetImageProperties inputFileName
  if props.retgip ≠ 0 then .error ⟨.inspection, [], []⟩ else
  let Dimension := (p.getUInt "-dim").getD props.Dimension
  let ComponentType := (p.getString "-pt").getD props.ComponentType
  if props.NumberOfComponents > 1 then .error ⟨.vectorImage, [], []⟩ else
  let ComponentType := w.ReplaceUnderscoreWithSpace ComponentType
  if retr ∧ radius.length ≠ Dimension ∧ radius.length ≠ 1 then
    .error ⟨.radiusCount, [], []⟩
  else
    let oob := vectorOob radius 0
    let Radius := List.replicate Dimension (vectorAt w.past radius 0)
    if retr ∧ radius.length = Dimension then
      match radiusLoop w.past radius (Dimension - 1) 1 Radius with
      | none => .error ⟨.radiusNonpositive, [], oob⟩
      | some Radius =>
        .ok ⟨ComponentType, Dimension, inputFileName, outputFileName, Radius,
          boundaryCondition, oob⟩
    else
      .ok ⟨ComponentType, Dimension, inputFileName, outputFileName, Radius,
        boundaryCondition, oob⟩

/-- Lines 145-164 of `main`: the `try` block with its eight `run` lines, the
`catch` clause and the final `return 0`. -/
def dispatch (w : World Call) (a : Args) : Outcome :=
  let r := tryBlock w.throwsITK
    [run a "unsigned char" 2, run a "unsigned char" 3, run a "char" 2, run a "char" 3,
     run a "unsigned short" 2, run a "unsigned short" 3, run a "short" 2, run a "short" 3]
  if r.2 then ⟨.itkException, r.1, a.oob⟩ else ⟨.done, r.1, a.oob⟩

/-- The function `main` of `erodeimage.cxx`. -/
def main (w : World Call) (p : CommandLine) : Outcome :=
  match validate w p with
  | .error o => o
  | .ok a => dispatch w a

end erodeimage

/-! ## Concrete collaborators for worked examples

The worlds below are used only to evaluate the programs on explicit command
lines.  Their filename functions follow `itksys::SystemTools`: the directory
part is dropped, and the name is cut at its last `.`. -/

/-- The part of a path after its last `/` (`itksys` `GetFilenameName`). -/
def fileName : List Char → List Char
  | [] => []
  | c :: cs => if '/' ∈ cs then fileName cs else if c = '/' then cs else c :: cs

/-- The characters before the last `.` of a name, the whole name when it has
no `.`. -/
def beforeLastDot : List Char → List Char
  | [] => []
  | c :: cs => if '.' ∈ cs then c :: beforeLastDot cs else if c = '.' then [] else c :: cs

/-- The last `.` of a name and what follows it, nothing when the name has no
`.`. -/
def fromLastDot : List Char → List Char
  | [] => []
  | c :: cs => if '.' ∈ cs then fromLastDot cs else if c = '.' then c :: cs else []

/-- A three-dimensional scalar `short` volume of extent `(4, 4, 4)`. -/
def volume444 : ImageProperties :=
  ⟨0, "scalar", "short", 3, 1, [4, 4, 4]⟩

/-- A world in which every file is `volume444`, no ITK call throws and a read
past the end of a vector yields `0`. -/
def demoWorld (Call : Type) : World Call where
  GetImageProperties := fun _ => volume444
  ReplaceUnderscoreWithSpace := fun s => String.mk (s.data.map (fun c => if c = '_' then ' ' else c))
  GetFilenameWithoutLastExtension := fun s => String.mk (beforeLastDot (fileName s.data))
  GetFilenameLastExtension := fun s => String.mk (fromLastDot (fileName s.data))
  throwsITK := fun _ => false
  past := fun _ => 0

/-- A three-dimensional scalar `short` volume of extent `(4, 4, 16)`. -/
def volume4416 : ImageProperties :=
  ⟨0, "scalar", "short", 3, 1, [4, 4, 16]⟩

/-- The world `demoWorld` with every file being `volume4416`. -/
def deepWorld (Call : Type) : World Call where
  GetImageProperties := fun _ => volume4416
  ReplaceUnderscoreWithSpace := fun s => String.mk (s.data.map (fun c => if c = '_' then ' ' else c))
  GetFilenameWithoutLastExtension := fun s => String.mk (beforeLastDot (fileName s.data))
  GetFilenameLastExtension := fun s => String.mk (fromLastDot (fileName s.data))
  throwsITK := fun _ => false
  past := fun _ => 0

/-- The command line `pxextractslice -in scan.mha -sn 4`. -/
def cmdSlice4 : CommandLine where
  argc := 5
  getString := fun k => if k = "-in" then some "scan.mha" else if k = "-sn" then some "4" else none
  getUInt := fun k => if k = "-sn" then some 4 else none
  getUIntList := fun _ => none

/-- The command line `pxerodeimage -in scan.mha -r 0`. -/
def cmdRadius0 : CommandLine where
  argc := 5
  getString := fun k => if k = "-in" then some "scan.mha" else none
  getUInt := fun _ => none
  getUIntList := fun k => if k = "-r" then some [0] else none

/-- The command line `pxextractslice -in scan.mha -sn 0 -d 5`. -/
def cmdAxis5 : CommandLine where
  argc := 7
  getString := fun k => if k = "-in" then some "scan.mha" else if k = "-sn" then some "0" else
    if k = "-d" then some "5" else none
  getUInt := fun k => if k = "-sn" then some 0 else if k = "-d" then some 5 else none
  getUIntList := fun _ => none

/-- The command line `pxextractslice -in scan.mha -sn 0`. -/
def cmdSlice0 : CommandLine where
  argc := 5
  getString := fun k => if k = "-in" then some "scan.mha" else if k = "-sn" then some "0" else none
  getUInt := fun k => if k = "-sn" then some 0 else none
  getUIntList := fun _ => none

/-- A world whose inspector reports a scalar `short` image of dimensionality
0 with extents `imagesize`, and in which a read past the end of a vector
yields `past i`. -/
def worldDim0 (Call : Type) (imagesize : List Nat) (past : Nat → Nat) : World Call where
  GetImageProperties := fun _ => ⟨0, "scalar", "short", 0, 1, imagesize⟩
  ReplaceUnderscoreWithSpace := fun s => s
  GetFilenameWithoutLastExtension := fun s => String.mk (beforeLastDot (fileName s.data))
  GetFilenameLastExtension := fun s => String.mk (fromLastDot (fileName s.data))
  throwsITK := fun _ => false
  past := past

/-- A world in which every file is a three-component (vector) image. -/
def worldVector (Call : Type) : World Call where
  GetImageProperties := fun _ => ⟨0, "vector", "short", 3, 3, [4, 4, 4]⟩
  ReplaceUnderscoreWithSpace := fun s => s
  GetFilenameWithoutLastExtension := fun s => s
  GetFilenameLastExtension := fun _ => ""
  throwsITK := fun _ => false
  past := fun _ => 0

/-- The command line
`pxerodeimage -in scan.mha -r 1 -sn 0 -pt short -dim 3 -out o.mha`, answering
both programs. -/
def cmdEverything : CommandLine where
  argc := 13
  getString := fun k => if k = "-in" then some "scan.mha" else if k = "-pt" then some "short" else
    if k = "-out" then some "o.mha" else none
  getUInt := fun k => if k = "-sn" then some 0 else if k = "-dim" then some 3 else none
  getUIntList := fun k => if k = "-r" then some [1] else none

/-- The region with start `(0, 0, 0)` and size `(4, 5, 6)`. -/
def region456 : extractslice.Region where
  Index := fun _ => 0
  Size := fun k => 4 + k.val

/-- The command line `pxerodeimage -in scan.mha -r 0 1 1`. -/
def cmdRadius011 : CommandLine where
  argc := 7
  getString := fun k => if k = "-in" then some "scan.mha" else none
  getUInt := fun _ => none
  getUIntList := fun k => if k = "-r" then some [0, 1, 1] else none

/-- The command line `pxerodeimage -in scan.mha -r 2 0 1`. -/
def cmdRadius201 : CommandLine where
  argc := 7
  getString := fun k => if k = "-in" then some "scan.mha" else none
  getUInt := fun _ => none
  getUIntList := fun k => if k = "-r" then some [2, 0, 1] else none

/-- The command line `-in scan.mha -r 1 -sn 7`, answering both programs. -/
def cmdScan7 : CommandLine where
  argc := 7
  getString := fun k => if k = "-in" then some "scan.mha" else if k = "-sn" then some "7" else none
  getUInt := fun k => if k = "-sn" then some 7 else none
  getUIntList := fun k => if k = "-r" then some [1] else none

/-- The command line `pxerodeimage -in scan.mha -r 1 2 3 -pt float`. -/
def cmdFloat : CommandLine where
  argc := 9
  getString := fun k => if k = "-in" then some "scan.mha" else if k = "-pt" then some "float" else none
  getUInt := fun _ => none
  getUIntList := fun k => if k = "-r" then some [1, 2, 3] else none

/-- The variables `erodeimage.main` hands to its `try` block on `cmdScan7`. -/
def argsErode7 : erodeimage.Args :=
  ⟨"short", 3, "scan.mha", "scanERODED.mha", [1, 1, 1], "", []⟩

/-- The variables `erodeimage.main` hands to its `try` block on `cmdFloat`. -/
def argsErodeFloat : erodeimage.Args :=
  ⟨"float", 3, "scan.mha", "scanERODED.mha", [1, 2, 3], "", []⟩

/-- The variables `extractslice.main` hands to its `try` block on
`cmdScan7`. -/
def argsSlice7 : extractslice.Args :=
  ⟨"short", "scan.mha", "scan_slice_z=7.mha", 7, 2, []⟩

/-- The command line `pxerodeimage -in scan.mha -r 1 2 3`. -/
def cmdRadius123 : CommandLine where
  argc := 7
  getString := fun k => if k = "-in" then some "scan.mha" else none
  getUInt := fun _ => none
  getUIntList := fun k => if k = "-r" then some [1, 2, 3] else none

/-- The variables `erodeimage.main` hands to its `try` block on
`cmdRadius123`. -/
def argsErode123 : erodeimage.Args :=
  ⟨"short", 3, "scan.mha", "scanERODED.mha", [1, 2, 3], "", []⟩

/-- The command line `pxextractslice -in scan.mha -sn 007`: the parser reads
the `-sn` argument as the number 7 and as the string `007`. -/
def cmdSn007 : CommandLine where
  argc := 5
  getString := fun k => if k = "-in" then some "scan.mha" else if k = "-sn" then some "007" else none
  getUInt := fun k => if k = "-sn" then some 7 else none
  getUIntList := fun _ => none

/-- The variables `extractslice.main` hands to its `try` block on
`cmdSn007`. -/
def argsSn007 : extractslice.Args :=
  ⟨"short", "scan.mha", "scan_slice_z=007.mha", 7, 2, []⟩

/-! ## Theorems -/

/-- A run of `extractslice.main` that passes every check is the `try` block
on the variables the checks leave. -/
theorem extractslice.extract_main_of_ok {w : World extractslice.Call} {p : CommandLine}
    {a : extractslice.Args} (h : extractslice.validate w p = .ok a) :
    extractslice.main w p = extractslice.dispatch w a := by
  unfold extractslice.main
  rw [h]

/-- A run of `extractslice.main` that fails a check is the outcome of that
check. -/
theorem extractslice.extract_main_of_error {w : World extractslice.Call} {p : CommandLine}
    {o : extractslice.Outcome} (h : extractslice.validate w p = .error o) :
    extractslice.main w p = o := by
  unfold extractslice.main
  rw [h]

/-- A run of `erodeimage.main` that passes every check is the `try` block on
the variables the checks leave. -/
theorem erodeimage.erode_main_of_ok {w : World erodeimage.Call} {p : CommandLine}
    {a : erodeimage.Args} (h : erodeimage.validate w p = .ok a) :
    erodeimage.main w p = erodeimage.dispatch w a := by
  unfold erodeimage.main
  rw [h]

/-- A run of `erodeimage.main` that fails a check is the outcome of that
check. -/
theorem erodeimage.erode_main_of_error {w : World erodeimage.Call} {p : CommandLine}
    {o : erodeimage.Outcome} (h : erodeimage.validate w p = .error o) :
    erodeimage.main w p = o := by
  unfold erodeimage.main
  rw [h]

/-- Inside the vector, `v[ i ]` is the entry at `i`. -/
theorem vectorAt_of_lt (past : Nat → Nat) (v : List Nat) (i : Nat) (h : i < v.length) :
    vectorAt past v i = v.getD i 0 := by
  simp [vectorAt, List.getD, List.getElem?_eq_getElem h]

/-- The loop of `erodeimage.main`, run for `n` iterations from counter `i`
inside both vectors: it returns early exactly when one of the entries
`radius[ i ], ..., radius[ i + n - 1 ]` is below 1, and otherwise leaves
`Radius` with those entries copied from `radius` and the others untouched. -/
theorem erodeimage.radiusLoop_spec (past : Nat → Nat) (radius : List Nat) :
    ∀ (n i : Nat) (R : List Nat), i + n ≤ radius.length → i + n ≤ R.length →
      match erodeimage.radiusLoop past radius n i R with
      | none => ∃ j, i ≤ j ∧ j < i + n ∧ radius.getD j 0 < 1
      | some R1 =>
        (∀ j, i ≤ j → j < i + n → 1 ≤ radius.getD j 0) ∧ R1.length = R.length ∧
          ∀ j, R1.getD j 0 = if i ≤ j ∧ j < i + n then radius.getD j 0 else R.getD j 0 := by
  intro n
  induction n with
  | zero =>
    intro i R _ _
    simp only [erodeimage.radiusLoop]
    refine ⟨fun j h1 h2 => absurd h2 (by omega), trivial, fun j => ?_⟩
    rw [if_neg (by omega)]
  | succ n ih =>
    intro i R hr hR
    have hi1 : i < radius.length := by omega
    have hi2 : i < R.length := by omega
    have hx : vectorAt past radius i = radius.getD i 0 := vectorAt_of_lt past radius i hi1
    have hy : vectorAt past (R.set i (radius.getD i 0)) i = radius.getD i 0 := by
      rw [vectorAt_of_lt past _ i (by simpa using hi2)]
      simp [List.getD, hi2]
    simp only [erodeimage.radiusLoop, hx, hy]
    by_cases hlt : radius.getD i 0 < 1
    · rw [if_pos hlt]
      exact ⟨i, le_refl _, by omega, hlt⟩
    · rw [if_neg hlt]
      have := ih (i + 1) (R.set i (radius.getD i 0)) (by omega) (by simp; omega)
      revert this
      cases erodeimage.radiusLoop past radius n (i + 1) (R.set i (radius.getD i 0)) with
      | none =>
        rintro ⟨j, h1, h2, h3⟩
        exact ⟨j, by omega, by omega, h3⟩
      | some R1 =>
        rintro ⟨h1, h2, h3⟩
        refine ⟨fun j hj1 hj2 => ?_, by simpa using h2, fun j => ?_⟩
        · by_cases hji : j = i
          · subst hji; omega
          · exact h1 j (by omega) (by omega)
        · rw [h3 j]
          by_cases hji : j = i
          · subst hji
            rw [if_neg (by omega), if_pos (by omega)]
            simp [List.getD, hi2]
          · by_cases hc : i + 1 ≤ j ∧ j < i + 1 + n
            · rw [if_pos hc, if_pos (by omega)]
            · rw [if_neg hc, if_neg (by omega)]
              simp [List.getD, List.getElem?_set, Ne.symm hji]

/-- The checks of `erodeimage.main` from the radius count on, for a run that
gave `-in` and `-r`, whose inspection succeeded and whose image has at most
one component. -/
theorem erodeimage.validate_at_radius_check (w : World erodeimage.Call) (p : CommandLine)
    (inputFileName : String) (radius : List Nat)
    (hargc : 5 ≤ p.argc ∧ p.argc ≤ 13)
    (hin : p.getString "-in" = some inputFileName)
    (hr : p.getUIntList "-r" = some radius)
    (hgip : (w.GetImageProperties inputFileName).retgip = 0)
    (hnoc : (w.GetImageProperties inputFileName).NumberOfComponents ≤ 1) :
    erodeimage.validate w p =
      if radius.length ≠ (p.getUInt "-dim").getD (w.GetImageProperties inputFileName).Dimension ∧
          radius.length ≠ 1 then
        .error ⟨.radiusCount, [], []⟩
      else if radius.length =
          (p.getUInt "-dim").getD (w.GetImageProperties inputFileName).Dimension then
        match erodeimage.radiusLoop w.past radius
            ((p.getUInt "-dim").getD (w.GetImageProperties inputFileName).Dimension - 1) 1
            (List.replicate
              ((p.getUInt "-dim").getD (w.GetImageProperties inputFileName).Dimension)
              (vectorAt w.past radius 0)) with
        | none => .error ⟨.radiusNonpositive, [], vectorOob radius 0⟩
        | some Radius =>
          .ok ⟨w.ReplaceUnderscoreWithSpace
              ((p.getString "-pt").getD (w.GetImageProperties inputFileName).ComponentType),
            (p.getUInt "-dim").getD (w.GetImageProperties inputFileName).Dimension,
            inputFileName,
            (p.getString "-out").getD
              (w.GetFilenameWithoutLastExtension inputFileName ++
                ("ERODED" ++ w.GetFilenameLastExtension inputFileName)),
            Radius, (p.getString "-bc").getD "", vectorOob radius 0⟩
      else
        .ok ⟨w.ReplaceUnderscoreWithSpace
            ((p.getString "-pt").getD (w.GetImageProperties inputFileName).ComponentType),
          (p.getUInt "-dim").getD (w.GetImageProperties inputFileName).Dimension,
          inputFileName,
          (p.getString "-out").getD
            (w.GetFilenameWithoutLastExtension inputFileName ++
              ("ERODED" ++ w.GetFilenameLastExtension inputFileName)),
          List.replicate
            ((p.getUInt "-dim").getD (w.GetImageProperties inputFileName).Dimension)
            (vectorAt w.past radius 0),
          (p.getString "-bc").getD "", vectorOob radius 0⟩ := by
  unfold erodeimage.validate
  have h1 : ¬ (p.argc < 5 ∨ p.argc > 13) := by omega
  have h2 : ¬ ((w.GetImageProperties inputFileName).NumberOfComponents > 1) := by omega
  simp only [hin, hr, Option.getD_some, Option.isSome_some, h1, h2, hgip, if_false, ne_eq,
    not_true_eq_false, Bool.not_true, Bool.false_eq_true, true_and]

/-- The `try` block of `erodeimage.main` returns either through the `catch`
clause or through the final `return 0`. -/
theorem erodeimage.dispatch_site (w : World erodeimage.Call) (a : erodeimage.Args) :
    (erodeimage.dispatch w a).site = .itkException ∨ (erodeimage.dispatch w a).site = .done := by
  unfold erodeimage.dispatch
  dsimp only
  split_ifs
  · exact Or.inl rfl
  · exact Or.inr rfl

/-- Inside a list, the optional entry at `i` is the entry at `i`. -/
theorem getElem?_eq_some_getD (l : List Nat) (i : Nat) (h : i < l.length) :
    l[i]? = some (l.getD i 0) := by
  simp [List.getD, List.getElem?_eq_getElem h]

/-- A run of `erodeimage.main` that passes every check gave `-in` and `-r`
within the admitted argument count, and inspected an image with at most one
component. -/
theorem erodeimage.validate_ok_inv {w : World erodeimage.Call} {p : CommandLine}
    {a : erodeimage.Args} (hok : erodeimage.validate w p = .ok a) :
    ∃ inputFileName radius, (5 ≤ p.argc ∧ p.argc ≤ 13) ∧
      p.getString "-in" = some inputFileName ∧ p.getUIntList "-r" = some radius ∧
      (w.GetImageProperties inputFileName).retgip = 0 ∧
      (w.GetImageProperties inputFileName).NumberOfComponents ≤ 1 := by
  unfold erodeimage.validate at hok
  by_cases hargc : p.argc < 5 ∨ p.argc > 13
  · rw [if_pos hargc] at hok
    cases hok
  · rw [if_neg hargc] at hok
    cases hin : p.getString "-in" with
    | none => simp [hin] at hok
    | some inputFileName =>
      cases hr : p.getUIntList "-r" with
      | none => simp [hin, hr] at hok
      | some radius =>
        by_cases hg : (w.GetImageProperties inputFileName).retgip = 0
        · by_cases hn : (w.GetImageProperties inputFileName).NumberOfComponents > 1
          · simp [hin, hr, hg, hn] at hok
          · exact ⟨inputFileName, radius, by omega, rfl, rfl, hg, by omega⟩
        · simp [hin, hr, hg] at hok

/-- The variables a passing run of `erodeimage.main` hands to its `try`
block, apart from `Radius`. -/
theorem erodeimage.erode_validate_ok_fields {w : World erodeimage.Call} {p : CommandLine}
    {a : erodeimage.Args} (hok : erodeimage.validate w p = .ok a) :
    ∃ inputFileName, p.getString "-in" = some inputFileName ∧
      a.ComponentType = w.ReplaceUnderscoreWithSpace
        ((p.getString "-pt").getD (w.GetImageProperties inputFileName).ComponentType) ∧
      a.Dimension = (p.getUInt "-dim").getD (w.GetImageProperties inputFileName).Dimension ∧
      a.inputFileName = inputFileName ∧
      a.outputFileName = (p.getString "-out").getD
        (w.GetFilenameWithoutLastExtension inputFileName ++
          ("ERODED" ++ w.GetFilenameLastExtension inputFileName)) ∧
      a.boundaryCondition = (p.getString "-bc").getD "" := by
  obtain ⟨f, r, hargc, hin, hr, hgip, hnoc⟩ := erodeimage.validate_ok_inv hok
  have hv := erodeimage.validate_at_radius_check w p f r hargc hin hr hgip hnoc
  rw [hok] at hv
  refine ⟨f, hin, ?_⟩
  split_ifs at hv
  · revert hv
    cases erodeimage.radiusLoop w.past r
        ((p.getUInt "-dim").getD (w.GetImageProperties f).Dimension - 1) 1
        (List.replicate ((p.getUInt "-dim").getD (w.GetImageProperties f).Dimension)
          (vectorAt w.past r 0)) with
    | none => intro hv; cases hv
    | some R1 =>
      intro hv
      cases hv
      exact ⟨rfl, rfl, rfl, rfl, rfl⟩
  · cases hv
    exact ⟨rfl, rfl, rfl, rfl, rfl⟩

/-- The variables a passing run of `extractslice.main` hands to its `try`
block. -/
theorem extractslice.extract_validate_ok_fields {w : World extractslice.Call} {p : CommandLine}
    {a : extractslice.Args} (hok : extractslice.validate w p = .ok a) :
    ∃ inputFileName slicenumber, p.getString "-in" = some inputFileName ∧
      p.getUInt "-sn" = some slicenumber ∧
      a.ComponentType = (p.getString "-pt").getD (w.GetImageProperties inputFileName).ComponentType ∧
      a.inputFileName = inputFileName ∧
      a.slicenumber = slicenumber ∧
      a.which_dimension = (p.getUInt "-d").getD 2 ∧
      a.outputFileName = (p.getString "-out").getD
        (w.GetFilenameWithoutLastExtension inputFileName ++ "_slice_" ++
          (if (p.getUInt "-d").getD 2 = 0 then "x"
            else if (p.getUInt "-d").getD 2 = 1 then "y" else "z") ++
          "=" ++ (p.getString "-sn").getD "" ++ w.GetFilenameLastExtension inputFileName) := by
  unfold extractslice.validate at hok
  cases hin : p.getString "-in" with
  | none =>
    rw [hin] at hok
    split_ifs at hok
  | some f =>
    cases hsn : p.getUInt "-sn" with
    | none =>
      rw [hin, hsn] at hok
      dsimp only at hok
      split_ifs at hok
    | some sn =>
      rw [hin, hsn] at hok
      dsimp only at hok
      split_ifs at hok
      all_goals
        cases hok
        refine ⟨f, sn, rfl, rfl, rfl, rfl, rfl, rfl, ?_⟩
        simp [*]

/-- Every call a `try` block makes is one of its statements. -/
theorem tryBlock_calls_mem {Call : Type} (throwsITK : Call → Bool) :
    ∀ (l : List (Option Call)) (c : Call), c ∈ (tryBlock throwsITK l).1 → some c ∈ l := by
  intro l
  induction l with
  | nil => intro c hc; simp [tryBlock] at hc
  | cons x rest ih =>
    intro c hc
    cases x with
    | none =>
      simp only [tryBlock] at hc
      exact List.mem_cons_of_mem _ (ih c hc)
    | some d =>
      simp only [tryBlock] at hc
      split_ifs at hc
      · simp only [List.mem_singleton] at hc
        subst hc
        exact List.mem_cons_self _ _
      · rcases List.mem_cons.mp hc with h | h
        · subst h
          exact List.mem_cons_self _ _
        · exact List.mem_cons_of_mem _ (ih c h)

/-- Every `ErodeImage` call of the `try` block carries the output file name
of the variables it was entered with. -/
theorem erodeimage.erode_dispatch_calls_output (w : World erodeimage.Call) (a : erodeimage.Args) :
    ∀ c ∈ (erodeimage.dispatch w a).calls, c.outputFileName = a.outputFileName := by
  intro c hc
  have hmem : c ∈ (tryBlock w.throwsITK
      [erodeimage.run a "unsigned char" 2, erodeimage.run a "unsigned char" 3,
        erodeimage.run a "char" 2, erodeimage.run a "char" 3,
        erodeimage.run a "unsigned short" 2, erodeimage.run a "unsigned short" 3,
        erodeimage.run a "short" 2, erodeimage.run a "short" 3]).1 := by
    unfold erodeimage.dispatch at hc
    dsimp only at hc
    split_ifs at hc <;> exact hc
  have hrun : ∀ ty dim, erodeimage.run a ty dim = some c →
      c.outputFileName = a.outputFileName := by
    intro ty dim h
    unfold erodeimage.run at h
    split_ifs at h
    cases h
    rfl
  have := tryBlock_calls_mem _ _ _ hmem
  simp only [List.mem_cons, List.mem_singleton, List.not_mem_nil, or_false] at this
  rcases this with h | h | h | h | h | h | h | h <;> exact hrun _ _ h.symm

/-- Every `ExtractSlice` call of the `try` block carries the output file
name of the variables it was entered with. -/
theorem extractslice.extract_dispatch_calls_output (w : World extractslice.Call)
    (a : extractslice.Args) :
    ∀ c ∈ (extractslice.dispatch w a).calls, c.outputFileName = a.outputFileName := by
  intro c hc
  have hmem : c ∈ (tryBlock w.throwsITK
      [extractslice.run a "unsigned char", extractslice.run a "char",
        extractslice.run a "unsigned short", extractslice.run a "short",
        extractslice.run a "float"]).1 := by
    unfold extractslice.dispatch at hc
    dsimp only at hc
    split_ifs at hc <;> exact hc
  have hrun : ∀ ty, extractslice.run a ty = some c →
      c.outputFileName = a.outputFileName := by
    intro ty h
    unfold extractslice.run at h
    split_ifs at h
    cases h
    rfl
  have := tryBlock_calls_mem _ _ _ hmem
  simp only [List.mem_cons, List.mem_singleton, List.not_mem_nil, or_false] at this
  rcases this with h | h | h | h | h <;> exact hrun _ h.symm

/-- On a supported pair of component type and dimension the `try` block of
`erodeimage.main` makes exactly the call for that pair. -/
theorem erodeimage.dispatch_supported (w : World erodeimage.Call) (a : erodeimage.Args)
    (hT : a.ComponentType ∈ ["unsigned char", "char", "unsigned short", "short"])
    (hD : a.Dimension ∈ [2, 3]) :
    (erodeimage.dispatch w a).calls =
      [⟨a.ComponentType, a.Dimension, a.inputFileName, a.outputFileName, a.Radius,
        a.boundaryCondition⟩] := by
  obtain ⟨T, D, f, o, R, b, oob⟩ := a
  simp only [List.mem_cons, List.mem_singleton, List.not_mem_nil, or_false] at hT hD
  rcases hT with rfl | rfl | rfl | rfl <;> rcases hD with rfl | rfl <;>
    simp [erodeimage.dispatch, erodeimage.run, tryBlock] <;>
    split_ifs <;> simp

/-- Off the supported pairs the `try` block of `erodeimage.main` calls
nothing and falls through to `return 0`. -/
theorem erodeimage.dispatch_unsupported (w : World erodeimage.Call) (a : erodeimage.Args)
    (h : ¬ (a.ComponentType ∈ ["unsigned char", "char", "unsigned short", "short"] ∧
      a.Dimension ∈ [2, 3])) :
    erodeimage.dispatch w a = ⟨.done, [], a.oob⟩ := by
  have hrun : ∀ ty dim, ty ∈ ["unsigned char", "char", "unsigned short", "short"] →
      dim ∈ [2, 3] → erodeimage.run a ty dim = none := by
    intro ty dim hty hdim
    unfold erodeimage.run
    rw [if_neg]
    rintro ⟨h1, h2⟩
    exact h ⟨h1 ▸ hty, h2 ▸ hdim⟩
  unfold erodeimage.dispatch
  rw [hrun "unsigned char" 2 (by simp) (by simp), hrun "unsigned char" 3 (by simp) (by simp),
    hrun "char" 2 (by simp) (by simp), hrun "char" 3 (by simp) (by simp),
    hrun "unsigned short" 2 (by simp) (by simp), hrun "unsigned short" 3 (by simp) (by simp),
    hrun "short" 2 (by simp) (by simp), hrun "short" 3 (by simp) (by simp)]
  simp [tryBlock]

/-- A slice index above the extent along the extraction axis is rejected by
`extractslice.main`: it returns 1 and calls nothing. -/
theorem extractslice.slice_rejected_of_gt (w : World extractslice.Call) (p : CommandLine)
    (inputFileName : String) (slicenumber extent : Nat)
    (hin : p.getString "-in" = some inputFileName)
    (hsn : p.getUInt "-sn" = some slicenumber)
    (hext : (w.GetImageProperties inputFileName).imagesize[(p.getUInt "-d").getD 2]? =
      some extent)
    (hgt : extent < slicenumber) :
    (extractslice.main w p).site.status = 1 ∧ (extractslice.main w p).calls = [] := by
  have hat : vectorAt w.past (w.GetImageProperties inputFileName).imagesize
      ((p.getUInt "-d").getD 2) = extent := by
    simp [vectorAt, hext]
  unfold extractslice.main extractslice.validate
  simp only [hin, hsn, hat]
  split_ifs <;> exact ⟨rfl, rfl⟩

/-- For an inspected dimensionality of at least 1, an extraction axis that is
not below it is rejected by `extractslice.main`, at the slice check or at the
axis check: it returns 1 and calls nothing. -/
theorem extractslice.axis_rejected_of_pos (w : World extractslice.Call) (p : CommandLine)
    (inputFileName : String)
    (hin : p.getString "-in" = some inputFileName)
    (hD1 : 1 ≤ (w.GetImageProperties inputFileName).Dimension)
    (hD2 : (w.GetImageProperties inputFileName).Dimension < 4294967296)
    (hd : (w.GetImageProperties inputFileName).Dimension ≤ (p.getUInt "-d").getD 2) :
    (extractslice.main w p).site.status = 1 ∧ (extractslice.main w p).calls = [] := by
  have hu : usub (w.GetImageProperties inputFileName).Dimension 1 =
      (w.GetImageProperties inputFileName).Dimension - 1 := by
    unfold usub
    omega
  unfold extractslice.main extractslice.validate
  simp only [hin, hu]
  cases p.getUInt "-sn" with
  | none =>
    dsimp only
    split_ifs <;> exact ⟨rfl, rfl⟩
  | some sn =>
    dsimp only
    split_ifs <;> first | exact ⟨rfl, rfl⟩ | omega

/-- C1. With `-in scan.mha -sn 4` on a volume of extent `(4, 4, 4)` the
slice index equals the extent along the default axis 2, and `main` does not
reject: the check `slicenumber > imagesize[ which_dimension ]` is false, the
run reaches the `try` block, calls `ExtractSlice< short >` with slice 4 and
returns 0. -/
theorem extractslice_accepts_slice_equal_to_extent :
    (demoWorld extractslice.Call).GetImageProperties "scan.mha" = volume444 ∧
    cmdSlice4.getUInt "-sn" = some 4 ∧ volume444.imagesize.get? 2 = some 4 ∧
    extractslice.main (demoWorld extractslice.Call) cmdSlice4 =
      ⟨.done, [⟨"short", "scan.mha", "scan_slice_z=4.mha", 4, 2⟩], []⟩ ∧
    (extractslice.main (demoWorld extractslice.Call) cmdSlice4).site.status = 0 := by
  decide

/-- C2. With `-in scan.mha -r 0` on a three-dimensional `short` image,
`main` passes every check and calls `ErodeImage< itk::Image< short, 3 > >`
with the radius vector `(0, 0, 0)`, whose components are all below 1; with
`-r 0 1 1` it calls it with `(0, 1, 1)`, whose first component is below 1. -/
theorem erodeimage_calls_with_zero_radius :
    erodeimage.main (demoWorld erodeimage.Call) cmdRadius0 =
      ⟨.done, [⟨"short", 3, "scan.mha", "scanERODED.mha", [0, 0, 0], ""⟩], []⟩ ∧
    erodeimage.main (demoWorld erodeimage.Call) cmdRadius011 =
      ⟨.done, [⟨"short", 3, "scan.mha", "scanERODED.mha", [0, 1, 1], ""⟩], []⟩ := by
  decide

/-- C3. For a run of `erodeimage.main` that reaches the radius check (`-in`
and `-r` given, the radius list non-empty, inspection succeeded, at most one
component) with dimensionality `D` (the `-dim` value when given, the
inspected one otherwise): `main` returns 1 at one of the two radius checks,
having called nothing, exactly when the length of the list is neither 1 nor
`D`, or it is `D` and some entry at an index `i` with `1 ≤ i < D` is below 1. -/
theorem erodeimage_radius_rejection_iff (w : World erodeimage.Call) (p : CommandLine)
    (inputFileName : String) (radius : List Nat) (D : Nat)
    (hargc : 5 ≤ p.argc ∧ p.argc ≤ 13)
    (hin : p.getString "-in" = some inputFileName)
    (hr : p.getUIntList "-r" = some radius)
    (hne : radius ≠ [])
    (hgip : (w.GetImageProperties inputFileName).retgip = 0)
    (hnoc : (w.GetImageProperties inputFileName).NumberOfComponents ≤ 1)
    (hD : D = (p.getUInt "-dim").getD (w.GetImageProperties inputFileName).Dimension) :
    (((erodeimage.main w p).site = .radiusCount ∨
        (erodeimage.main w p).site = .radiusNonpositive) ∧
      (erodeimage.main w p).site.status = 1 ∧ (erodeimage.main w p).calls = []) ↔
    ((radius.length ≠ 1 ∧ radius.length ≠ D) ∨
      (radius.length = D ∧ ∃ i, 1 ≤ i ∧ i < D ∧ radius.getD i 0 < 1)) := by
  have hv := erodeimage.validate_at_radius_check w p inputFileName radius hargc hin hr hgip hnoc
  rw [← hD] at hv
  have hlen : 0 < radius.length := List.length_pos.mpr hne
  by_cases hc : radius.length ≠ D ∧ radius.length ≠ 1
  · rw [if_pos hc] at hv
    rw [erodeimage.erode_main_of_error hv]
    exact ⟨fun _ => Or.inl ⟨hc.2, hc.1⟩, fun _ => ⟨Or.inl rfl, rfl, rfl⟩⟩
  · rw [if_neg hc] at hv
    by_cases hlD : radius.length = D
    · rw [if_pos hlD] at hv
      have hspec := erodeimage.radiusLoop_spec w.past radius (D - 1) 1
        (List.replicate D (vectorAt w.past radius 0)) (by omega) (by simp; omega)
      revert hv hspec
      cases erodeimage.radiusLoop w.past radius (D - 1) 1
          (List.replicate D (vectorAt w.past radius 0)) with
      | none =>
        intro hv hspec
        rw [erodeimage.erode_main_of_error hv]
        obtain ⟨j, h1, h2, h3⟩ := hspec
        exact ⟨fun _ => Or.inr ⟨hlD, j, h1, by omega, h3⟩, fun _ => ⟨Or.inr rfl, rfl, rfl⟩⟩
      | some R1 =>
        intro hv hspec
        rw [erodeimage.erode_main_of_ok hv]
        constructor
        · rintro ⟨hs, -, -⟩
          rcases erodeimage.dispatch_site w _ with h | h <;> rw [h] at hs <;> simp at hs
        · rintro (⟨-, h⟩ | ⟨-, i, h1, h2, h3⟩)
          · exact absurd hlD h
          · have := hspec.1 i h1 (by omega)
            omega
    · rw [if_neg hlD] at hv
      rw [erodeimage.erode_main_of_ok hv]
      constructor
      · rintro ⟨hs, -, -⟩
        rcases erodeimage.dispatch_site w _ with h | h <;> rw [h] at hs <;> simp at hs
      · rintro (⟨h, -⟩ | ⟨h, -⟩)
        · exact absurd ⟨hlD, h⟩ hc
        · exact absurd h hlD

/-- The vector `Radius` of a run of `erodeimage.main` that passes every
check: it has length `D`, repeats the single entry of a one-entry radius
list, and copies a radius list of `D` entries. -/
theorem erodeimage.radius_of_ok (w : World erodeimage.Call) (p : CommandLine)
    (inputFileName : String) (radius : List Nat) (D : Nat) (a : erodeimage.Args)
    (hin : p.getString "-in" = some inputFileName)
    (hr : p.getUIntList "-r" = some radius)
    (hD : D = (p.getUInt "-dim").getD (w.GetImageProperties inputFileName).Dimension)
    (hok : erodeimage.validate w p = .ok a) :
    a.Dimension = D ∧ a.Radius.length = D ∧
    (radius.length = 1 → ∀ i, i < D → a.Radius[i]? = radius[0]?) ∧
    (radius.length = D → ∀ i, i < D → a.Radius[i]? = radius[i]?) := by
  obtain ⟨f, r, hargc, hin1, hr1, hgip, hnoc⟩ := erodeimage.validate_ok_inv hok
  rw [hin] at hin1
  rw [hr] at hr1
  cases hin1
  cases hr1
  have hv := erodeimage.validate_at_radius_check w p inputFileName radius hargc hin hr hgip hnoc
  rw [← hD, hok] at hv
  by_cases hc : radius.length ≠ D ∧ radius.length ≠ 1
  · rw [if_pos hc] at hv
    cases hv
  · rw [if_neg hc] at hv
    by_cases hlD : radius.length = D
    · rw [if_pos hlD] at hv
      rcases Nat.eq_zero_or_pos D with h0 | hpos
      · subst h0
        simp only [erodeimage.radiusLoop, List.replicate] at hv
        cases hv
        exact ⟨rfl, rfl, fun _ i hi => absurd hi (by omega), fun _ i hi => absurd hi (by omega)⟩
      · have hspec := erodeimage.radiusLoop_spec w.past radius (D - 1) 1
          (List.replicate D (vectorAt w.past radius 0)) (by omega) (by simp; omega)
        revert hv hspec
        cases erodeimage.radiusLoop w.past radius (D - 1) 1
            (List.replicate D (vectorAt w.past radius 0)) with
        | none => intro hv; cases hv
        | some R1 =>
          intro hv hspec
          cases hv
          obtain ⟨-, hl, hget⟩ := hspec
          have hl1 : R1.length = D := by simpa using hl
          have hall : ∀ i, i < D → R1[i]? = radius[i]? := by
            intro i hi
            rw [getElem?_eq_some_getD R1 i (by omega),
              getElem?_eq_some_getD radius i (by omega), hget i]
            by_cases h1 : 1 ≤ i
            · rw [if_pos ⟨h1, by omega⟩]
            · have hi0 : i = 0 := by omega
              subst hi0
              rw [if_neg (by omega), vectorAt_of_lt w.past radius 0 (by omega)]
              simp [List.getD, hpos]
          refine ⟨rfl, hl1, fun h1 i hi => ?_, fun _ => hall⟩
          have hi0 : i = 0 := by omega
          subst hi0
          exact hall 0 hi
    · rw [if_neg hlD] at hv
      cases hv
      have h1 : radius.length = 1 := by
        by_contra h
        exact hc ⟨hlD, h⟩
      refine ⟨rfl, by simp, fun _ i hi => ?_, fun h => absurd h hlD⟩
      rw [getElem?_eq_some_getD radius 0 (by omega), vectorAt_of_lt w.past radius 0 (by omega)]
      simp [hi]

/-- C3, worked example: `-r 2 0 1` on a three-dimensional image is rejected
at the radius check, because the entry at index 1 is 0. -/
theorem erodeimage_radius_rejection_iff_witness :
    (5 ≤ cmdRadius201.argc ∧ cmdRadius201.argc ≤ 13) ∧
    cmdRadius201.getUIntList "-r" = some [2, 0, 1] ∧
    ((((erodeimage.main (demoWorld _) cmdRadius201).site = .radiusCount ∨
        (erodeimage.main (demoWorld _) cmdRadius201).site = .radiusNonpositive) ∧
      (erodeimage.main (demoWorld _) cmdRadius201).site.status = 1 ∧
      (erodeimage.main (demoWorld _) cmdRadius201).calls = []) ↔
    (([2, 0, 1].length ≠ 1 ∧ [2, 0, 1].length ≠ 3) ∨
      ([2, 0, 1].length = 3 ∧ ∃ i, 1 ≤ i ∧ i < 3 ∧ [2, 0, 1].getD i 0 < 1))) :=
  ⟨by decide, by decide,
    erodeimage_radius_rejection_iff (demoWorld _) cmdRadius201 "scan.mha" [2, 0, 1] 3
      (by decide) (by decide) (by decide) (by decide) (by decide) (by decide) (by decide)⟩

/-- A run of `erodeimage.main` that reaches the radius check passes it when
the radius list has one entry or `D` entries and, in the latter case, every
entry at an index `i` with `1 ≤ i < D` is at least 1. -/
theorem erodeimage.validate_passes (w : World erodeimage.Call) (p : CommandLine)
    (inputFileName : String) (radius : List Nat) (D : Nat)
    (hargc : 5 ≤ p.argc ∧ p.argc ≤ 13)
    (hin : p.getString "-in" = some inputFileName)
    (hr : p.getUIntList "-r" = some radius)
    (hgip : (w.GetImageProperties inputFileName).retgip = 0)
    (hnoc : (w.GetImageProperties inputFileName).NumberOfComponents ≤ 1)
    (hD : D = (p.getUInt "-dim").getD (w.GetImageProperties inputFileName).Dimension)
    (hlen : radius.length = 1 ∨ radius.length = D)
    (hpos : radius.length = D → ∀ i, i < D → 1 ≤ i → 1 ≤ radius.getD i 0) :
    ∃ a, erodeimage.validate w p = .ok a := by
  have hv := erodeimage.validate_at_radius_check w p inputFileName radius hargc hin hr hgip hnoc
  rw [← hD] at hv
  have hc : ¬ (radius.length ≠ D ∧ radius.length ≠ 1) := by
    rintro ⟨h1, h2⟩
    rcases hlen with h | h
    · exact h2 h
    · exact h1 h
  rw [if_neg hc] at hv
  by_cases hlD : radius.length = D
  · rw [if_pos hlD] at hv
    rcases Nat.eq_zero_or_pos D with h0 | hDpos
    · subst h0
      simp only [erodeimage.radiusLoop] at hv
      exact ⟨_, hv⟩
    · have hspec := erodeimage.radiusLoop_spec w.past radius (D - 1) 1
        (List.replicate D (vectorAt w.past radius 0)) (by omega) (by simp; omega)
      revert hv hspec
      cases erodeimage.radiusLoop w.past radius (D - 1) 1
          (List.replicate D (vectorAt w.past radius 0)) with
      | none =>
        intro _ hspec
        obtain ⟨j, h1, h2, h3⟩ := hspec
        have := hpos hlD j (by omega) h1
        omega
      | some R1 =>
        intro hv _
        exact ⟨_, hv⟩
  · rw [if_neg hlD] at hv
    exact ⟨_, hv⟩

/-- C4. For a run of `erodeimage.main` with radius list `radius` and
dimensionality `D` (the `-dim` value when given, the inspected one
otherwise).  First, whenever the run passes every check, the vector `Radius`
handed to the `try` block has length `D`; when `radius` has one entry every
`Radius[ i ]` with `i < D` is that entry, and when `radius` has `D` entries
every `Radius[ i ]` with `i < D` is `radius[ i ]`.  Second, the run does
pass every check, and so hands over such a vector, whenever it reaches the
radius check with a list of one or `D` entries whose entries at the indices
`1 ≤ i < D` are at least 1 when it has `D` entries. -/
theorem erodeimage_effective_radius (w : World erodeimage.Call) (p : CommandLine)
    (inputFileName : String) (radius : List Nat) (D : Nat)
    (hin : p.getString "-in" = some inputFileName)
    (hr : p.getUIntList "-r" = some radius)
    (hD : D = (p.getUInt "-dim").getD (w.GetImageProperties inputFileName).Dimension) :
    (∀ a, erodeimage.validate w p = .ok a →
      a.Dimension = D ∧ a.Radius.length = D ∧
      (radius.length = 1 → ∀ i, i < D → a.Radius[i]? = radius[0]?) ∧
      (radius.length = D → ∀ i, i < D → a.Radius[i]? = radius[i]?)) ∧
    ((5 ≤ p.argc ∧ p.argc ≤ 13) →
      (w.GetImageProperties inputFileName).retgip = 0 →
      (w.GetImageProperties inputFileName).NumberOfComponents ≤ 1 →
      (radius.length = 1 ∨ radius.length = D) →
      (radius.length = D → ∀ i, i < D → 1 ≤ i → 1 ≤ radius.getD i 0) →
      ∃ a, erodeimage.validate w p = .ok a ∧
        a.Dimension = D ∧ a.Radius.length = D ∧
        (radius.length = 1 → ∀ i, i < D → a.Radius[i]? = radius[0]?) ∧
        (radius.length = D → ∀ i, i < D → a.Radius[i]? = radius[i]?)) := by
  refine ⟨fun a hok => erodeimage.radius_of_ok w p inputFileName radius D a hin hr hD hok, ?_⟩
  intro hargc hgip hnoc hlen hpos
  obtain ⟨a, hok⟩ := erodeimage.validate_passes w p inputFileName radius D hargc hin hr hgip
    hnoc hD hlen hpos
  exact ⟨a, hok, erodeimage.radius_of_ok w p inputFileName radius D a hin hr hD hok⟩

/-- C4, worked example: `-r 1 2 3` on a three-dimensional image passes the
checks and is handed over verbatim as `(1, 2, 3)`; `-r 1` passes and is
broadcast to `(1, 1, 1)`. -/
theorem erodeimage_effective_radius_witness :
    (erodeimage.validate (demoWorld _) cmdRadius123 = .ok argsErode123 ∧
      argsErode123.Radius = [1, 2, 3] ∧
      ∃ a, erodeimage.validate (demoWorld _) cmdRadius123 = .ok a ∧
        a.Dimension = 3 ∧ a.Radius.length = 3 ∧
        ([1, 2, 3].length = 1 → ∀ i, i < 3 → a.Radius[i]? = [1, 2, 3][0]?) ∧
        ([1, 2, 3].length = 3 → ∀ i, i < 3 → a.Radius[i]? = [1, 2, 3][i]?)) ∧
    (erodeimage.validate (demoWorld _) cmdScan7 = .ok argsErode7 ∧
      argsErode7.Radius = [1, 1, 1] ∧
      ∃ a, erodeimage.validate (demoWorld _) cmdScan7 = .ok a ∧
        a.Dimension = 3 ∧ a.Radius.length = 3 ∧
        ([1].length = 1 → ∀ i, i < 3 → a.Radius[i]? = [1][0]?) ∧
        ([1].length = 3 → ∀ i, i < 3 → a.Radius[i]? = [1][i]?)) :=
  ⟨⟨rfl, rfl,
      (erodeimage_effective_radius (demoWorld _) cmdRadius123 "scan.mha" [1, 2, 3] 3
        (by decide) (by decide) (by decide)).2
        (by decide) (by decide) (by decide) (by decide) (by decide)⟩,
    ⟨rfl, rfl,
      (erodeimage_effective_radius (demoWorld _) cmdScan7 "scan.mha" [1] 3
        (by decide) (by decide) (by decide)).2
        (by decide) (by decide) (by decide) (by decide) (by decide)⟩⟩

/-- C5. When the inspector reports more than one component for the file
named by `-in`, `erodeimage.main` and `extractslice.main` both return 1 and
make no call to their processing routine, whatever else the command line
holds; no call means no output file, which only the routine writes. -/
theorem vector_image_rejected :
    (∀ (w : World erodeimage.Call) (p : CommandLine) (inputFileName : String),
      p.getString "-in" = some inputFileName →
      (w.GetImageProperties inputFileName).NumberOfComponents > 1 →
      (erodeimage.main w p).site.status = 1 ∧ (erodeimage.main w p).calls = []) ∧
    (∀ (w : World extractslice.Call) (p : CommandLine) (inputFileName : String),
      p.getString "-in" = some inputFileName →
      (w.GetImageProperties inputFileName).NumberOfComponents > 1 →
      (extractslice.main w p).site.status = 1 ∧ (extractslice.main w p).calls = []) := by
  constructor
  · intro w p inputFileName hin he
    unfold erodeimage.main erodeimage.validate
    simp only [hin, Option.getD_some, Option.isSome_some]
    split_ifs <;> simp_all [erodeimage.Site.status]
  · intro w p inputFileName hin hx
    unfold extractslice.main extractslice.validate
    simp only [hin]
    split_ifs <;> simp_all [extractslice.Site.status]

/-- C5, worked example: a three-component image with every flag given. -/
theorem vector_image_rejected_witness :
    ((worldVector erodeimage.Call).GetImageProperties "scan.mha").NumberOfComponents > 1 ∧
    ((erodeimage.main (worldVector _) cmdEverything).site.status = 1 ∧
      (erodeimage.main (worldVector _) cmdEverything).calls = []) ∧
    ((extractslice.main (worldVector _) cmdEverything).site.status = 1 ∧
      (extractslice.main (worldVector _) cmdEverything).calls = []) :=
  ⟨by decide,
    vector_image_rejected.1 (worldVector _) cmdEverything "scan.mha" (by decide) (by decide),
    vector_image_rejected.2 (worldVector _) cmdEverything "scan.mha" (by decide) (by decide)⟩

/-- C6. For a run of `erodeimage.main` that passes every check, with
component type `T` (after `ReplaceUnderscoreWithSpace`) and dimensionality
`D` as handed to the `try` block: when `T` is one of `unsigned char`, `char`,
`unsigned short`, `short` and `D` is 2 or 3, `main` makes exactly one call,
`ErodeImage` for that type and dimension; otherwise it makes no call and
returns 0. -/
theorem erodeimage_dispatch_matrix (w : World erodeimage.Call) (p : CommandLine)
    (a : erodeimage.Args) (hok : erodeimage.validate w p = .ok a) :
    (a.ComponentType = w.ReplaceUnderscoreWithSpace
        ((p.getString "-pt").getD
          (w.GetImageProperties ((p.getString "-in").getD "")).ComponentType) ∧
      a.Dimension = (p.getUInt "-dim").getD
        (w.GetImageProperties ((p.getString "-in").getD "")).Dimension) ∧
    ((a.ComponentType ∈ ["unsigned char", "char", "unsigned short", "short"] ∧
        a.Dimension ∈ [2, 3]) →
      (erodeimage.main w p).calls =
        [⟨a.ComponentType, a.Dimension, a.inputFileName, a.outputFileName, a.Radius,
          a.boundaryCondition⟩]) ∧
    (¬ (a.ComponentType ∈ ["unsigned char", "char", "unsigned short", "short"] ∧
        a.Dimension ∈ [2, 3]) →
      (erodeimage.main w p).calls = [] ∧ (erodeimage.main w p).site = .done ∧
        (erodeimage.main w p).site.status = 0) := by
  obtain ⟨f, hin, hT, hD, -, -, -⟩ := erodeimage.erode_validate_ok_fields hok
  rw [erodeimage.erode_main_of_ok hok]
  refine ⟨?_, fun h => erodeimage.dispatch_supported w a h.1 h.2, fun h => ?_⟩
  · rw [hin]
    exact ⟨hT, hD⟩
  · rw [erodeimage.dispatch_unsupported w a h]
    exact ⟨rfl, rfl, rfl⟩

/-- C6, worked example: a `short` volume is eroded by the one call for
`(short, 3)`; with `-pt float` nothing is called and `main` returns 0. -/
theorem erodeimage_dispatch_matrix_witness :
    erodeimage.validate (demoWorld _) cmdScan7 = .ok argsErode7 ∧
    (erodeimage.main (demoWorld _) cmdScan7).calls =
      [⟨"short", 3, "scan.mha", "scanERODED.mha", [1, 1, 1], ""⟩] ∧
    erodeimage.validate (demoWorld _) cmdFloat = .ok argsErodeFloat ∧
    ((erodeimage.main (demoWorld _) cmdFloat).calls = [] ∧
      (erodeimage.main (demoWorld _) cmdFloat).site = .done ∧
      (erodeimage.main (demoWorld _) cmdFloat).site.status = 0) :=
  ⟨rfl, (erodeimage_dispatch_matrix (demoWorld _) cmdScan7 argsErode7 rfl).2.1 (by decide),
    rfl, (erodeimage_dispatch_matrix (demoWorld _) cmdFloat argsErodeFloat rfl).2.2 (by decide)⟩

/-- C7. When the inspector reports dimensionality 0, the default axis 2 is
not below the dimensionality, and `main` still does not reject.  With
`-sn 0` the slice check passes whatever `imagesize[ 2 ]` yields (an entry of
`imagesize`, or a read past its end when it is empty); `Dimension - 1` wraps
to `4294967295`, so the check `which_dimension > Dimension - 1` is false;
`ExtractSlice< short >` is called and `main` returns 0. -/
theorem extractslice_dimension_zero_not_rejected (imagesize : List Nat) (past : Nat → Nat) :
    usub 0 1 = 4294967295 ∧
    extractslice.main (worldDim0 extractslice.Call imagesize past) cmdSlice0 =
      ⟨.done, [⟨"short", "scan.mha", "scan_slice_z=0.mha", 0, 2⟩], vectorOob imagesize 2⟩ := by
  have hu : usub 0 1 = 4294967295 := by decide
  have hv : extractslice.validate (worldDim0 extractslice.Call imagesize past) cmdSlice0 =
      .ok ⟨"short", "scan.mha", "scan_slice_z=0.mha", 0, 2, vectorOob imagesize 2⟩ := by
    unfold extractslice.validate
    simp only [worldDim0, cmdSlice0, hu]
    simp only [String.reduceEq, reduceIte, Option.getD_none, Option.getD_some, Nat.lt_irrefl,
      ne_eq, not_true_eq_false, gt_iff_lt, Nat.not_lt_zero, Nat.reduceLT, OfNat.ofNat_ne_zero,
      OfNat.ofNat_ne_one]
    rfl
  have hd : extractslice.dispatch (worldDim0 extractslice.Call imagesize past)
        ⟨"short", "scan.mha", "scan_slice_z=0.mha", 0, 2, vectorOob imagesize 2⟩ =
      ⟨.done, [⟨"short", "scan.mha", "scan_slice_z=0.mha", 0, 2⟩], vectorOob imagesize 2⟩ := by
    simp only [extractslice.dispatch, extractslice.run, worldDim0, String.reduceEq, reduceIte,
      tryBlock, Bool.false_eq_true]
  exact ⟨hu, by rw [extractslice.extract_main_of_ok hv, hd]⟩

/-- C8, as worded, fails at `-in scan.mha -sn 007`.  The parser reads the
slice index 7, the run passes every check with axis 2 and no `-out`, and the
name made from the decimal slice index would be `scan_slice_z=7.mha`; the
program builds `scan_slice_z=007.mha`, from the text of the argument, and
calls `ExtractSlice` with it. -/
theorem default_output_filename_not_decimal :
    cmdSn007.getUInt "-sn" = some 7 ∧ cmdSn007.getString "-out" = none ∧
    extractslice.validate (deepWorld _) cmdSn007 = .ok argsSn007 ∧
    argsSn007.slicenumber = 7 ∧ argsSn007.which_dimension = 2 ∧
    (deepWorld extractslice.Call).GetFilenameWithoutLastExtension "scan.mha" ++ "_slice_" ++ "z" ++
        "=" ++ toString argsSn007.slicenumber ++
        (deepWorld extractslice.Call).GetFilenameLastExtension "scan.mha" =
      "scan_slice_z=7.mha" ∧
    argsSn007.outputFileName = "scan_slice_z=007.mha" ∧
    argsSn007.outputFileName ≠
      (deepWorld extractslice.Call).GetFilenameWithoutLastExtension "scan.mha" ++ "_slice_" ++
        "z" ++ "=" ++ toString argsSn007.slicenumber ++
        (deepWorld extractslice.Call).GetFilenameLastExtension "scan.mha" ∧
    (extractslice.main (deepWorld _) cmdSn007).calls =
      [⟨"short", "scan.mha", "scan_slice_z=007.mha", 7, 2⟩] := by
  refine ⟨by decide, by decide, rfl, rfl, rfl, by decide, rfl, by decide, by decide⟩

/-- C8, amended.  The output path of a run that gave `-in`, with `S` and `E`
the results of `GetFilenameWithoutLastExtension` and
`GetFilenameLastExtension` on the input path.  Erosion: the `-out` value
when `-out` is given, `S ++ "ERODED" ++ E` otherwise.  Extraction, for an
axis 0, 1 or 2 with letter `L` (`x`, `y`, `z`) and `tok` the text of the
`-sn` argument, whose numeric reading is the slice index: the `-out` value
when `-out` is given, `S ++ "_slice_" ++ L ++ "=" ++ tok ++ E` otherwise; when
`tok` is the decimal numeral of the slice index this is the name with the
decimal slice index.  Every call of the processing routine is made with that
path. -/
theorem default_output_filename :
    (∀ (w : World erodeimage.Call) (p : CommandLine) (inputFileName : String)
        (a : erodeimage.Args),
      p.getString "-in" = some inputFileName → erodeimage.validate w p = .ok a →
      a.outputFileName =
          (match p.getString "-out" with
            | some out => out
            | none => w.GetFilenameWithoutLastExtension inputFileName ++ "ERODED" ++
                w.GetFilenameLastExtension inputFileName) ∧
        ∀ c ∈ (erodeimage.main w p).calls, c.outputFileName = a.outputFileName) ∧
    (∀ (w : World extractslice.Call) (p : CommandLine) (inputFileName tok L : String)
        (a : extractslice.Args),
      p.getString "-in" = some inputFileName → p.getString "-sn" = some tok →
      extractslice.validate w p = .ok a →
      ["x", "y", "z"][a.which_dimension]? = some L →
      p.getUInt "-sn" = some a.slicenumber ∧
        a.outputFileName =
          (match p.getString "-out" with
            | some out => out
            | none => w.GetFilenameWithoutLastExtension inputFileName ++ "_slice_" ++ L ++
                "=" ++ tok ++ w.GetFilenameLastExtension inputFileName) ∧
        (tok = toString a.slicenumber →
          a.outputFileName =
            (match p.getString "-out" with
              | some out => out
              | none => w.GetFilenameWithoutLastExtension inputFileName ++ "_slice_" ++ L ++
                  "=" ++ toString a.slicenumber ++
                  w.GetFilenameLastExtension inputFileName)) ∧
        ∀ c ∈ (extractslice.main w p).calls, c.outputFileName = a.outputFileName) := by
  constructor
  · intro w p inputFileName a hin hok
    obtain ⟨f, hin1, -, -, -, hout, -⟩ := erodeimage.erode_validate_ok_fields hok
    rw [hin] at hin1
    cases hin1
    rw [erodeimage.erode_main_of_ok hok]
    refine ⟨?_, erodeimage.erode_dispatch_calls_output w a⟩
    rw [hout]
    cases p.getString "-out" with
    | none => simp [String.append_assoc]
    | some out => rfl
  · intro w p inputFileName tok L a hin hsn hok hL
    obtain ⟨f, sn, hin1, hsn1, -, -, hsl, hd, hout⟩ := extractslice.extract_validate_ok_fields hok
    rw [hin] at hin1
    cases hin1
    rw [extractslice.extract_main_of_ok hok]
    have hdir : (if a.which_dimension = 0 then "x"
        else if a.which_dimension = 1 then "y" else "z") = L := by
      rcases Nat.lt_or_ge a.which_dimension 3 with h3 | h3
      · interval_cases a.which_dimension <;> simp at hL <;> simp [hL]
      · rw [List.getElem?_eq_none (by simpa using h3)] at hL
        cases hL
    have hname : a.outputFileName =
        (match p.getString "-out" with
          | some out => out
          | none => w.GetFilenameWithoutLastExtension inputFileName ++ "_slice_" ++ L ++
              "=" ++ tok ++ w.GetFilenameLastExtension inputFileName) := by
      rw [hout, hsn, ← hd, hdir]
      cases p.getString "-out" with
      | none => rfl
      | some out => rfl
    refine ⟨by rw [hsn1, hsl], hname, fun htok => ?_,
      extractslice.extract_dispatch_calls_output w a⟩
    rw [← htok]
    exact hname

/-- C8, worked example: input `scan.mha` gives `scanERODED.mha`, and with
axis 2 and `-sn 7` gives `scan_slice_z=7.mha`. -/
theorem default_output_filename_witness :
    (erodeimage.validate (demoWorld _) cmdScan7 = .ok argsErode7 ∧
      argsErode7.outputFileName = "scanERODED.mha" ∧
      ∀ c ∈ (erodeimage.main (demoWorld _) cmdScan7).calls,
        c.outputFileName = "scanERODED.mha") ∧
    (extractslice.validate (deepWorld _) cmdScan7 = .ok argsSlice7 ∧
      argsSlice7.which_dimension = 2 ∧ cmdScan7.getString "-sn" = some "7" ∧
      toString argsSlice7.slicenumber = "7" ∧
      cmdScan7.getUInt "-sn" = some argsSlice7.slicenumber ∧
      argsSlice7.outputFileName = "scan_slice_z=7.mha" ∧
      ∀ c ∈ (extractslice.main (deepWorld _) cmdScan7).calls,
        c.outputFileName = "scan_slice_z=7.mha") :=
  ⟨⟨rfl,
      (default_output_filename.1 (demoWorld _) cmdScan7 "scan.mha" argsErode7
        (by decide) rfl).1,
      (default_output_filename.1 (demoWorld _) cmdScan7 "scan.mha" argsErode7
        (by decide) rfl).2⟩,
    ⟨rfl, rfl, by decide, by decide,
      (default_output_filename.2 (deepWorld _) cmdScan7 "scan.mha" "7" "z" argsSlice7
        (by decide) (by decide) rfl (by decide)).1,
      (default_output_filename.2 (deepWorld _) cmdScan7 "scan.mha" "7" "z" argsSlice7
        (by decide) (by decide) rfl (by decide)).2.2.1 (by decide),
      (default_output_filename.2 (deepWorld _) cmdScan7 "scan.mha" "7" "z" argsSlice7
        (by decide) (by decide) rfl (by decide)).2.2.2⟩⟩

/-- C9. For an axis `which_dimension` among 0, 1, 2 the region built by
`ExtractSlice` exists, keeps start and size of the input region on every
other axis, and on the axis itself starts at `slicenumber` with size 0. -/
theorem desiredRegion_collapses_axis (inputRegion : extractslice.Region)
    (slicenumber which_dimension : Nat) (hd : which_dimension < 3) :
    ∃ r, extractslice.desiredRegion inputRegion slicenumber which_dimension = some r ∧
      (∀ k : Fin 3, k.val ≠ which_dimension →
        r.Index k = inputRegion.Index k ∧ r.Size k = inputRegion.Size k) ∧
      r.Index ⟨which_dimension, hd⟩ = (slicenumber : Int) ∧
      r.Size ⟨which_dimension, hd⟩ = 0 := by
  refine ⟨_, by rw [extractslice.desiredRegion, dif_pos hd], ?_, ?_, ?_⟩
  · intro k hk
    have hne : k ≠ ⟨which_dimension, hd⟩ := fun h => hk (by rw [h])
    simp [Function.update_noteq hne]
  · simp
  · simp

/-- C9, worked example: slice 7 along axis 1 of the region `(0,0,0)+(4,5,6)`. -/
theorem desiredRegion_collapses_axis_witness :
    (1 : Nat) < 3 ∧
    ∃ r, extractslice.desiredRegion region456 7 1 = some r ∧
      (∀ k : Fin 3, k.val ≠ 1 →
        r.Index k = region456.Index k ∧ r.Size k = region456.Size k) ∧
      r.Index ⟨1, by decide⟩ = (7 : Int) ∧
      r.Size ⟨1, by decide⟩ = 0 :=
  ⟨by decide, desiredRegion_collapses_axis region456 7 1 (by decide)⟩

/-- C10. With `-sn 0 -d 5` on a volume of dimensionality 3 whose `imagesize`
has three entries, the run reaches the slice check and reads
`imagesize[ 5 ]`, past the end of the vector; the axis is rejected only by
the check that follows. -/
theorem extractslice_reads_imagesize_past_end :
    volume444.imagesize.length = volume444.Dimension ∧
    cmdAxis5.getUInt "-d" = some 5 ∧
    extractslice.main (demoWorld extractslice.Call) cmdAxis5 = ⟨.whichDimension, [], [5]⟩ := by
  decide

end ITKTools
